import Mathlib

/-!
Shallow embedding of the input-processing core of `src/main.c` (volumepad
firmware): per-switch debouncing and long-press detection, quadrature dial
decoding, the switch-action dispatcher, and the bounded key-output buffers.

Machine integers are modelled as `Nat`.  The C code keeps the per-switch
debounce data in `switch_debounce_states[i]` (fields `state`, `count`) and the
derived bits in the bitmask bytes `debounced_switches` / `long_press_switches`
(bit `i` of each); since the loop body of `update_debounced_state` touches only
switch `i`'s record and bit `i` of the two bytes, a switch's whole per-tick
state is the four-field record below, and the global update is the pointwise
map over the seven switches.
-/

set_option maxRecDepth 4000

namespace Volumepad

/-- `LongPressTime` from main.c: ticks before a held key counts as a long
press. -/
def LongPressTime : Nat := 160

/-- `DebounceTickLimit` from main.c: consecutive identical ticks needed to
register a keypress. -/
def DebounceTickLimit : Nat := 3

/-- Per-switch state: `state`/`count` are `switch_debounce_states[i]`,
`debounced` is bit `i` of `debounced_switches`, `long_press` is bit `i` of
`long_press_switches`.  All bits use the source convention 1 = released,
0 = pressed. -/
structure SwState where
  state : Nat
  count : Nat
  debounced : Nat
  long_press : Nat
  deriving DecidableEq, Repr

/-- Startup state of every switch (`setup` in main.c sets
`switch_debounce_states[i] = {1, 0}`; `debounced_switches` and
`long_press_switches` are initialised to `0x7f`, i.e. every bit 1). -/
def initial_switch : SwState := ⟨1, 0, 1, 1⟩

/-- Body of the `for` loop of `update_debounced_state` in main.c for one
switch, where `key_val = (raw_switches_state >> i) & 1`.  The two inner `if`s
run in sequence, so the long-press clear (reaching `LongPressTime` while
pressed) is applied after the debounce commit (reaching `DebounceTickLimit`). -/
def update_switch (key_val : Nat) (s : SwState) : SwState :=
  if key_val ≠ s.state then
    { s with count := 0, state := key_val }
  else if s.count < LongPressTime then
    { state := s.state,
      count := s.count + 1,
      debounced := if s.count + 1 = DebounceTickLimit then key_val else s.debounced,
      long_press :=
        if s.count + 1 = LongPressTime ∧ key_val = 0 then 0
        else if s.count + 1 = DebounceTickLimit ∧ key_val = 1 then 1
        else s.long_press }
  else s

/-- `update_debounced_state raw` in main.c, as the pointwise per-switch map
(the loop body for index `i` reads and writes only switch `i`'s state). -/
def update_debounced_state (raw_switches_state : Nat) (g : Fin 7 → SwState) :
    Fin 7 → SwState :=
  fun i => update_switch ((raw_switches_state >>> (i : Nat)) &&& 1) (g i)

/-- Iterate `update_switch` over a list of raw bit samples (one per tick). -/
def run_bits (s : SwState) (bits : List Nat) : SwState :=
  bits.foldl (fun st v => update_switch v st) s

/-- Iterate the per-tick update for switch `i` over a list of raw PORTB
snapshots, starting from state `s`; each tick feeds
`(raw >> i) & 1` to the loop body, exactly as `update_debounced_state` does. -/
def run_switch (i : Nat) (s : SwState) (raws : List Nat) : SwState :=
  raws.foldl (fun st raw => update_switch ((raw >>> i) &&& 1) st) s

/-!
Key codes and the two bounded key buffers (`media_key_change`,
`basic_key_change` in main.c).  A C key array is 0-terminated and every
consumer stops at the terminator, so a key list is a `List Nat` of the entries
before the terminator.  `keyboard_keys` (6 slots) and `media_keys` (4 slots)
are `List Nat`s whose empty slots hold 0; `keyboard_modifier_keys` is a `Nat`
bitmask.
-/

/-- `MediaKey(scancode)` from main.c. -/
def MediaKey (scancode : Nat) : Nat := 0x1000 ||| scancode

def MODIFIER_KEYS_START : Nat := 224

def MODIFIER_KEYS_END : Nat := 231

def KEY_VOLUME_UP : Nat := MediaKey 0xe9

def KEY_VOLUME_DOWN : Nat := MediaKey 0xea

def KEY_SLEEP : Nat := MediaKey 0x32

def KEY_PLAYPAUSE : Nat := MediaKey 0xcd

def KEY_PREV : Nat := MediaKey 0xb6

def KEY_NEXT : Nat := MediaKey 0xb5

def KEY_WWWHOME : Nat := MediaKey 0x223

def KEY_WWWSEARCH : Nat := MediaKey 0x221

/-- The slot-scanning `for` loop shared by `media_key_change` and the
non-modifier branch of `basic_key_change` in main.c: argument `i` is the
current index, the `Nat` result is `free_index` (255 = none found / key
already pressed).  On a press (`newstate ≠ 0`) finding the key breaks out with
`free_index = 255`; on a release every matching slot is cleared; the first
empty slot seen during a press is remembered in `free_index`. -/
def key_slot_loop (key newstate : Nat) : Nat → List Nat → Nat → List Nat × Nat
  | _, [], free_index => ([], free_index)
  | i, k :: rest, free_index =>
    if k = key ∧ newstate ≠ 0 then (k :: rest, 255)
    else
      let k1 := if k = key then 0 else k
      let free1 := if newstate ≠ 0 ∧ k = 0 ∧ free_index = 255 then i else free_index
      let r := key_slot_loop key newstate (i + 1) rest free1
      (k1 :: r.1, r.2)

/-- `media_key_change` from main.c acting on the `media_keys` slot array
(4 slots in the firmware).  After the scan, a press stores the key only when
`free_index < 4`. -/
def media_key_change (key newstate : Nat) (media_keys : List Nat) : List Nat :=
  let r := key_slot_loop key newstate 0 media_keys 255
  if newstate ≠ 0 ∧ r.2 < 4 then r.1.set r.2 key else r.1

/-- `basic_key_change` from main.c acting on
`(keyboard_modifier_keys, keyboard_keys)`.  Modifier codes (224–231) flip a
bit of the modifier mask; other codes go through the 6-slot scan, but the
store guard is `free_index < 4`, transcribed verbatim from the source. -/
def basic_key_change (key newstate : Nat) (st : Nat × List Nat) : Nat × List Nat :=
  if MODIFIER_KEYS_START ≤ key ∧ key ≤ MODIFIER_KEYS_END then
    let affected_field := key &&& 0x07
    let mask := (if newstate ≠ 0 then 1 else 0) <<< affected_field
    ((st.1 &&& (0xff ^^^ (1 <<< affected_field))) ||| mask, st.2)
  else
    let r := key_slot_loop key newstate 0 st.2 255
    (st.1, if newstate ≠ 0 ∧ r.2 < 4 then r.1.set r.2 key else r.1)

/-!
The switch-action dispatcher: the "Process normal switches" loop body of
`run` in main.c, for one switch.  A `SendCall` records one
`press_keys`/`release_keys` call: the key list and the `pressed` argument
passed to `send_keys`.  A NULL key-list pointer is `none`; dereferencing it
(as `press_keys(action_keys)` in the quick-release branch would) makes the
result `none`, every other outcome is `some` of the emitted calls in program
order.
-/

/-- `SwitchAction` from main.c; `none` models a NULL array pointer. -/
structure SwitchAction where
  press_keys : Option (List Nat)
  long_press_keys : Option (List Nat)
  deriving DecidableEq, Repr

/-- `SwitchActionMap` from main.c (PORTB0..PORTB6; indices 1 and 5 are the
dial and have no actions). -/
def SwitchActionMap : List SwitchAction :=
  [⟨some [KEY_WWWHOME], some [KEY_WWWSEARCH]⟩,
   ⟨none, none⟩,
   ⟨some [KEY_SLEEP], none⟩,
   ⟨some [KEY_PREV], none⟩,
   ⟨some [KEY_PLAYPAUSE], none⟩,
   ⟨none, none⟩,
   ⟨some [KEY_NEXT], none⟩]

/-- One `press_keys`/`release_keys` call: the key list and the pressed flag. -/
abbrev SendCall := List Nat × Nat

/-- Loop body of the "Process normal switches" loop of `run` in main.c for
switch `i`, where `deb`/`lp` are bit `i` of `debounced_switches` /
`long_press_switches` this tick and `lastDeb`/`lastLp` are bit `i` of
`last_pressed_keys` / `last_long_pressed_keys`.  The three `if` blocks
(newly-pressed, newly-long-pressed, released) run in sequence and their
emitted calls are concatenated; only the quick-release "tap" branch calls
`press_keys`/`release_keys` on `press_keys` without a NULL check, which is the
single `none` outcome. -/
def dispatch_switch (deb lastDeb lp lastLp : Nat)
    (press long : Option (List Nat)) : Option (List SendCall) :=
  let changed := (deb ^^^ lastDeb) &&& 1
  let changedLong := (lp ^^^ lastLp) &&& 1
  let part1 : List SendCall :=
    if deb = 0 ∧ changed ≠ 0 then
      match long, press with
      | none, some ks => [(ks, 1)]
      | _, _ => []
    else []
  let part2 : List SendCall :=
    if lp = 0 ∧ changedLong ≠ 0 then
      match long with
      | some lks => [(lks, 1)]
      | none => []
    else []
  let part3 : Option (List SendCall) :=
    if deb = 1 ∧ changed ≠ 0 then
      match long with
      | some lks =>
        if lp = 1 ∧ changedLong ≠ 0 then some [(lks, 0)]
        else
          match press with
          | some ks => some [(ks, 1), (ks, 0)]
          | none => none
      | none =>
        match press with
        | some ks => some [(ks, 0)]
        | none => some []
    else some []
  part3.map (fun p3 => part1 ++ part2 ++ p3)

/-!
The dial decoder: the "Process dial" section of `run` in main.c.
-/

/-- `Direction` enum from main.c. -/
inductive Direction where
  | CCW
  | CW
  deriving DecidableEq, Repr

/-- `DialA` from main.c: index of the dial's A contact. -/
def DialA : Nat := 1

/-- `DialB` from main.c: index of the dial's B contact. -/
def DialB : Nat := 5

def DialCCWKeys : List Nat := [KEY_VOLUME_DOWN]

def DialCWKeys : List Nat := [KEY_VOLUME_UP]

/-- Dial decoder state (`dial_moving`, `dial_position`, `dial_direction`
locals of `run`). -/
structure DialState where
  dial_moving : Nat
  dial_position : Nat
  dial_direction : Direction
  deriving DecidableEq, Repr

/-- The "Process dial" section of `run` in main.c, with `a`/`b` the debounced
bits of the two dial contacts this tick.  Returns the new dial state and the
`press_keys`/`release_keys` calls emitted (one press-then-release pulse per
completed detent, else nothing). -/
def dial_step (a b : Nat) (d : DialState) : DialState × List SendCall :=
  if a ≠ b then
    ({ dial_moving := 1, dial_position := d.dial_position,
       dial_direction := if a ≠ d.dial_position then Direction.CW else Direction.CCW }, [])
  else if d.dial_moving ≠ 0 then
    if a ≠ d.dial_position then
      let keys := if d.dial_direction = Direction.CW then DialCWKeys else DialCCWKeys
      ({ dial_moving := 0, dial_position := a, dial_direction := d.dial_direction },
       [(keys, 1), (keys, 0)])
    else
      ({ d with dial_moving := 0 }, [])
  else if a ≠ d.dial_position then
    ({ d with dial_position := a }, [])
  else
    (d, [])

/-- The dial part of one `run` iteration in terms of the packed
`debounced_switches` byte: the code reads bits `DialA` and `DialB`. -/
def dial_tick (debounced_switches : Nat) (d : DialState) : DialState × List SendCall :=
  dial_step ((debounced_switches >>> DialA) &&& 1) ((debounced_switches >>> DialB) &&& 1) d

/-- Invariant of the debounce engine used to settle the long-press/debounced
relation: the long-press bit is low only while the debounced bit is low, and
once the stability count has passed the debounce threshold the debounced bit
agrees with the tracked raw bit. -/
def DebounceInv (s : SwState) : Prop :=
  (s.long_press = 0 → s.debounced = 0) ∧
  (DebounceTickLimit ≤ s.count → s.debounced = s.state)

/-!
Theorems.
-/

theorem run_bits_cons (s : SwState) (v : Nat) (rest : List Nat) :
    run_bits s (v :: rest) = run_bits (update_switch v s) rest := rfl

theorem run_bits_append (s : SwState) (l1 l2 : List Nat) :
    run_bits s (l1 ++ l2) = run_bits (run_bits s l1) l2 := by
  simp [run_bits]

/-- C3: on every tick the dial decoder performs exactly one of the cases and
emits at most one rotation event: unequal A/B marks the dial moving with
direction clockwise iff A differs from the settled position; equal A/B while
moving settles, emitting exactly one press-then-release pulse of the
configured direction keys iff A differs from the settled position (else
nothing, the bounce-back case); equal A/B while not moving resynchronizes the
settled position to A with no event when they differ, and does nothing
otherwise. -/
theorem C3_dial_decoder (a b : Nat) (d : DialState) :
    (a ≠ b →
      dial_step a b d =
        ({ dial_moving := 1, dial_position := d.dial_position,
           dial_direction := if a ≠ d.dial_position then Direction.CW else Direction.CCW },
         [])) ∧
    (a = b → d.dial_moving ≠ 0 → a ≠ d.dial_position →
      dial_step a b d =
        ({ dial_moving := 0, dial_position := a, dial_direction := d.dial_direction },
         [(if d.dial_direction = Direction.CW then DialCWKeys else DialCCWKeys, 1),
          (if d.dial_direction = Direction.CW then DialCWKeys else DialCCWKeys, 0)])) ∧
    (a = b → d.dial_moving ≠ 0 → a = d.dial_position →
      dial_step a b d = ({ d with dial_moving := 0 }, [])) ∧
    (a = b → d.dial_moving = 0 → a ≠ d.dial_position →
      dial_step a b d = ({ d with dial_position := a }, [])) ∧
    (a = b → d.dial_moving = 0 → a = d.dial_position → dial_step a b d = (d, [])) := by
  refine ⟨?_, ?_, ?_, ?_, ?_⟩
  · intro h
    simp [dial_step, h]
  · intro h1 h2 h3
    subst h1
    simp [dial_step, h2, h3]
  · intro h1 h2 h3
    subst h1
    simp [dial_step, h2, h3]
  · intro h1 h2 h3
    subst h1
    simp [dial_step, h2, h3]
  · intro h1 h2 h3
    subst h1
    simp [dial_step, h2, h3]

/-- C3 witness: a settle tick after moving clockwise emits exactly one
press-then-release pulse of the clockwise keys. -/
theorem C3_dial_decoder_witness :
    dial_step 1 1 ⟨1, 0, Direction.CW⟩ =
      (⟨0, 1, Direction.CW⟩, [(DialCWKeys, 1), (DialCWKeys, 0)]) := by
  have h := (C3_dial_decoder 1 1 ⟨1, 0, Direction.CW⟩).2.1 rfl (by decide) (by decide)
  simpa using h

/-- C4: a switch with both short- and long-press key lists whose debounced bit
transitions to released while the long-press bit is still 1 with no long-press
transition this tick emits exactly one press-then-release pulse of the
short-press keys, and no call touching the long-press keys. -/
theorem C4_quick_release_tap (ks lks : List Nat) :
    dispatch_switch 1 0 1 1 (some ks) (some lks) = some [(ks, 1), (ks, 0)] := rfl

/-- C5: for a switch with a long-press key list, the tick where the long-press
bit transitions to long-pressed presses the long-press keys (and nothing
else), a subsequent release tick releases the long-press keys (never the
short-press keys, whatever they are), and a tick with no transitions emits
nothing. -/
theorem C5_long_press_dispatch (press : Option (List Nat)) (lks : List Nat) :
    dispatch_switch 0 0 0 1 press (some lks) = some [(lks, 1)] ∧
    dispatch_switch 1 0 1 0 press (some lks) = some [(lks, 0)] ∧
    ∀ deb lp : Nat, dispatch_switch deb deb lp lp press (some lks) = some [] := by
  refine ⟨rfl, rfl, ?_⟩
  intro deb lp
  simp [dispatch_switch, Nat.xor_self]

/-- C10: the quick-release tap branch dereferences the short-press list with
no NULL check, so the dispatcher is free of NULL reads exactly under the
precondition that a configured long-press list implies a configured
short-press list; the shipped `SwitchActionMap` satisfies that precondition
for all 7 switches, while a switch configured with `press = NULL,
long_press = keys` reaches the dereference. -/
theorem C10_tap_null_safety :
    (∀ sa ∈ SwitchActionMap, sa.long_press_keys ≠ none → sa.press_keys ≠ none) ∧
    (∀ (deb lastDeb lp lastLp : Nat) (press long : Option (List Nat)),
      (long ≠ none → press ≠ none) →
      dispatch_switch deb lastDeb lp lastLp press long ≠ none) ∧
    dispatch_switch 1 0 1 1 none (some [KEY_WWWSEARCH]) = none := by
  refine ⟨by decide, ?_, by decide⟩
  intro deb lastDeb lp lastLp press long hp
  cases long with
  | none =>
    cases press with
    | none => simp only [dispatch_switch, ne_eq]; split_ifs <;> simp
    | some ks => simp only [dispatch_switch, ne_eq]; split_ifs <;> simp
  | some lks =>
    have hp2 : press ≠ none := hp (by simp)
    obtain ⟨ks, rfl⟩ := Option.ne_none_iff_exists'.mp hp2
    simp only [dispatch_switch, ne_eq]
    split_ifs <;> simp

/-- C10 witness: under the precondition (both lists configured), a
quick-release tick dereferences no NULL pointer. -/
theorem C10_tap_null_safety_witness :
    dispatch_switch 1 0 1 1 (some [3]) (some [4]) ≠ none :=
  C10_tap_null_safety.2.1 1 0 1 1 (some [3]) (some [4]) (fun _ => by simp)

/-- C1 (refuting the claim as stated): with four distinct keys held and both
of slots 4 and 5 empty, a press of a fresh key code is dropped — the store
guard of `basic_key_change` tests `free_index < 4` although the buffer has 6
slots — whereas a press whose first empty slot is index 3 is stored there. -/
theorem C1_press_dropped_despite_empty_slot :
    basic_key_change 8 1 (0, [4, 5, 6, 7, 0, 0]) = (0, [4, 5, 6, 7, 0, 0]) ∧
    basic_key_change 8 1 (0, [4, 5, 6, 0, 0, 0]) = (0, [4, 5, 6, 8, 0, 0]) := by
  decide

theorem key_slot_loop_mem_press (key : Nat) :
    ∀ (ks : List Nat) (i free : Nat), key ∈ ks →
      key_slot_loop key 1 i ks free = (ks, 255) := by
  intro ks
  induction ks with
  | nil => intro i free h; simp at h
  | cons k rest ih =>
    intro i free h
    by_cases hk : k = key
    · simp [key_slot_loop, hk]
    · have hr : key ∈ rest := by
        rcases List.mem_cons.mp h with h1 | h1
        · exact absurd h1.symm hk
        · exact h1
      simp [key_slot_loop, hk, ih (i + 1) _ hr]

theorem key_slot_loop_release (key : Nat) :
    ∀ (ks : List Nat) (i free : Nat),
      key_slot_loop key 0 i ks free =
        (ks.map (fun k => if k = key then 0 else k), free) := by
  intro ks
  induction ks with
  | nil => intro i free; simp [key_slot_loop]
  | cons k rest ih => intro i free; simp [key_slot_loop, ih]

theorem map_clear_of_not_mem (key : Nat) :
    ∀ ks : List Nat, key ∉ ks →
      ks.map (fun k => if k = key then 0 else k) = ks := by
  intro ks
  induction ks with
  | nil => intro _; rfl
  | cons k rest ih =>
    intro h
    simp only [List.mem_cons, not_or] at h
    obtain ⟨h1, h2⟩ := h
    rw [List.map_cons, if_neg (fun hkk => h1 hkk.symm), ih h2]

/-- C9: for both slot buffers, pressing a code already present leaves the
buffer unchanged, releasing clears every matching slot (no reference
counting), and releasing an absent code is a no-op; for the standard buffer
this covers every non-modifier code, and the modifier mask is untouched. -/
theorem C9_key_buffer_algebra (key : Nat) (media_keys : List Nat) (mods : Nat)
    (keyboard_keys : List Nat) :
    (key ∈ media_keys → media_key_change key 1 media_keys = media_keys) ∧
    (media_key_change key 0 media_keys =
      media_keys.map (fun k => if k = key then 0 else k)) ∧
    (key ∉ media_keys → media_key_change key 0 media_keys = media_keys) ∧
    (¬(MODIFIER_KEYS_START ≤ key ∧ key ≤ MODIFIER_KEYS_END) →
      (key ∈ keyboard_keys →
        basic_key_change key 1 (mods, keyboard_keys) = (mods, keyboard_keys)) ∧
      (basic_key_change key 0 (mods, keyboard_keys) =
        (mods, keyboard_keys.map (fun k => if k = key then 0 else k))) ∧
      (key ∉ keyboard_keys →
        basic_key_change key 0 (mods, keyboard_keys) = (mods, keyboard_keys))) := by
  refine ⟨?_, ?_, ?_, ?_⟩
  · intro h
    simp [media_key_change, key_slot_loop_mem_press key media_keys 0 255 h]
  · simp [media_key_change, key_slot_loop_release]
  · intro h
    simp [media_key_change, key_slot_loop_release, map_clear_of_not_mem key media_keys h]
  · intro hmod
    refine ⟨?_, ?_, ?_⟩
    · intro h
      simp [basic_key_change, hmod, key_slot_loop_mem_press key keyboard_keys 0 255 h]
    · simp [basic_key_change, hmod, key_slot_loop_release]
    · intro h
      simp [basic_key_change, hmod, key_slot_loop_release,
        map_clear_of_not_mem key keyboard_keys h]

/-- C9 witness: concrete idempotent press, multi-referenced release, and
absent-code release on both buffers. -/
theorem C9_key_buffer_algebra_witness :
    media_key_change 9 1 [0, 9, 0, 0] = [0, 9, 0, 0] ∧
    media_key_change 9 0 [7, 9, 0, 0] = [7, 0, 0, 0] ∧
    basic_key_change 10 1 (0, [10, 0, 0, 0, 0, 0]) = (0, [10, 0, 0, 0, 0, 0]) ∧
    basic_key_change 11 0 (0, [10, 0, 0, 0, 0, 0]) = (0, [10, 0, 0, 0, 0, 0]) := by
  refine ⟨(C9_key_buffer_algebra 9 [0, 9, 0, 0] 0 []).1 (by decide), ?_, ?_, ?_⟩
  · have h := (C9_key_buffer_algebra 9 [7, 9, 0, 0] 0 []).2.1
    simpa using h
  · exact ((C9_key_buffer_algebra 10 [] 0 [10, 0, 0, 0, 0, 0]).2.2.2 (by decide)).1 (by decide)
  · exact ((C9_key_buffer_algebra 11 [] 0 [10, 0, 0, 0, 0, 0]).2.2.2 (by decide)).2.2 (by decide)

/-- C2: on a matching tick, the debounced bit is committed to the tracked raw
bit exactly when the count reaches `DebounceTickLimit` (with a committed
release also forcing the long-press bit to 1), the debounced bit is unchanged
at every other instant (including mismatching ticks), and the long-press bit
is cleared to 0 exactly when the count reaches `LongPressTime` with the
tracked bit pressed. -/
theorem C2_debounce_commit (v : Nat) (s : SwState) :
    (v = s.state → s.count + 1 = DebounceTickLimit →
      (update_switch v s).debounced = v ∧ (v = 1 → (update_switch v s).long_press = 1)) ∧
    (v = s.state → s.count + 1 ≠ DebounceTickLimit →
      (update_switch v s).debounced = s.debounced) ∧
    (v ≠ s.state → (update_switch v s).debounced = s.debounced) ∧
    (v = s.state → s.count + 1 = LongPressTime → v = 0 →
      (update_switch v s).long_press = 0) := by
  refine ⟨?_, ?_, ?_, ?_⟩
  · intro h1 h2
    subst h1
    unfold DebounceTickLimit at h2
    unfold update_switch DebounceTickLimit LongPressTime
    rw [if_neg (by simp), if_pos (by omega)]
    constructor
    · simp [h2]
    · intro hv
      simp [h2, hv]
  · intro h1 h2
    subst h1
    unfold DebounceTickLimit at h2
    unfold update_switch DebounceTickLimit LongPressTime
    rw [if_neg (by simp)]
    by_cases hlt : s.count < 160
    · rw [if_pos hlt]
      simp [h2]
    · rw [if_neg hlt]
  · intro h
    unfold update_switch
    rw [if_pos h]
  · intro h1 h2 h3
    subst h1
    unfold LongPressTime at h2
    unfold update_switch DebounceTickLimit LongPressTime
    rw [if_neg (by simp), if_pos (by omega)]
    simp [h2, h3]

/-- C2 witness: the third matching tick of a press commits the pressed bit. -/
theorem C2_debounce_commit_witness : (update_switch 0 ⟨0, 2, 1, 1⟩).debounced = 0 :=
  ((C2_debounce_commit 0 ⟨0, 2, 1, 1⟩).1 rfl (by decide)).1

theorem count_le_step (v : Nat) (s : SwState) (h : s.count ≤ LongPressTime) :
    (update_switch v s).count ≤ LongPressTime := by
  unfold update_switch
  split_ifs <;> (try dsimp only) <;> omega

theorem count_bound_run (i : Nat) :
    ∀ (raws : List Nat) (s : SwState),
      s.count ≤ LongPressTime → (run_switch i s raws).count ≤ LongPressTime := by
  intro raws
  induction raws with
  | nil => intro s h; simpa [run_switch] using h
  | cons r rest ih =>
    intro s h
    exact ih _ (count_le_step _ _ h)

/-- C8: the stability count resets to 0 on a mismatching tick, increments on a
matching tick only while strictly below `LongPressTime`, is left unchanged
once there (saturation), and therefore never exceeds `LongPressTime` on any
reachable state. -/
theorem C8_stability_count_bound :
    (∀ (v : Nat) (s : SwState),
      (v ≠ s.state → (update_switch v s).count = 0) ∧
      (v = s.state → s.count < LongPressTime → (update_switch v s).count = s.count + 1) ∧
      (v = s.state → LongPressTime ≤ s.count → (update_switch v s).count = s.count) ∧
      (s.count ≤ LongPressTime → (update_switch v s).count ≤ LongPressTime)) ∧
    (∀ (i : Nat) (raws : List Nat),
      (run_switch i initial_switch raws).count ≤ LongPressTime) := by
  constructor
  · intro v s
    refine ⟨?_, ?_, ?_, fun h => count_le_step v s h⟩
    · intro h
      unfold update_switch
      rw [if_pos h]
    · intro h1 h2
      subst h1
      unfold update_switch
      rw [if_neg (by simp), if_pos h2]
    · intro h1 h2
      subst h1
      unfold update_switch
      rw [if_neg (by simp), if_neg (by omega)]
  · intro i raws
    exact count_bound_run i raws initial_switch (by decide)

/-- C8 witness: a saturated count stays at `LongPressTime` on a matching
tick. -/
theorem C8_stability_count_bound_witness :
    (update_switch 0 ⟨0, 160, 0, 0⟩).count = 160 :=
  (C8_stability_count_bound.1 0 ⟨0, 160, 0, 0⟩).2.2.1 rfl (by decide)

theorem debounce_inv_step (v : Nat) (s : SwState) (hv : v ≤ 1) (h : DebounceInv s) :
    DebounceInv (update_switch v s) := by
  obtain ⟨h1, h2⟩ := h
  unfold DebounceInv update_switch DebounceTickLimit LongPressTime at *
  split_ifs <;>
    refine ⟨fun hlp => ?_, fun hc => ?_⟩ <;>
    (try dsimp only at *) <;>
    omega

theorem debounce_inv_run (i : Nat) :
    ∀ (raws : List Nat) (s : SwState), DebounceInv s → DebounceInv (run_switch i s raws) := by
  intro raws
  induction raws with
  | nil => intro s h; simpa [run_switch] using h
  | cons r rest ih =>
    intro s h
    exact ih _ (debounce_inv_step _ _ Nat.and_le_right h)

/-- C6: on every state of the debounce engine reachable from the all-released
startup state (for any switch index and any sequence of raw snapshots), the
long-press bit is 0 only when the debounced bit is 0; the per-tick update
preserves this along every such run. -/
theorem C6_long_press_invariant (i : Nat) (raws : List Nat)
    (h : (run_switch i initial_switch raws).long_press = 0) :
    (run_switch i initial_switch raws).debounced = 0 :=
  (debounce_inv_run i raws initial_switch
    ⟨fun hlp => by simp [initial_switch] at hlp,
     fun hc => by
      unfold initial_switch DebounceTickLimit at hc
      dsimp only at hc
      omega⟩).1 h

/-- C6 witness: 161 consecutive pressed samples drive the long-press bit to 0,
and the invariant yields a pressed debounced bit there. -/
theorem C6_long_press_invariant_witness :
    (run_switch 0 initial_switch (List.replicate 161 0)).debounced = 0 :=
  C6_long_press_invariant 0 (List.replicate 161 0) (by decide)

theorem run_same_low (v : Nat) :
    ∀ (n : Nat) (s : SwState), s.state = v → s.count + n < DebounceTickLimit →
      run_bits s (List.replicate n v) = { s with count := s.count + n } := by
  intro n
  induction n with
  | zero =>
    intro s h1 h2
    cases s
    simp [run_bits]
  | succ n ih =>
    intro s h1 h2
    rw [List.replicate_succ, run_bits_cons]
    have hs : update_switch v s = { s with count := s.count + 1 } := by
      unfold DebounceTickLimit at h2
      unfold update_switch DebounceTickLimit LongPressTime
      rw [if_neg (by simp [h1]), if_pos (by omega), if_neg (by omega),
        if_neg (by omega), if_neg (by omega)]
    rw [hs, ih { s with count := s.count + 1 } (by simpa using h1) (by dsimp only; omega)]
    dsimp only
    have hcc : s.count + 1 + n = s.count + (n + 1) := by omega
    rw [hcc]

theorem run_same_deb (v : Nat) :
    ∀ (n : Nat) (s : SwState), s.state = v → s.debounced = v →
      (run_bits s (List.replicate n v)).debounced = v ∧
        (run_bits s (List.replicate n v)).state = v := by
  intro n
  induction n with
  | zero =>
    intro s h1 h2
    simp [run_bits, h1, h2]
  | succ n ih =>
    intro s h1 h2
    rw [List.replicate_succ, run_bits_cons]
    have h3 : (update_switch v s).state = v ∧ (update_switch v s).debounced = v := by
      unfold update_switch
      rw [if_neg (by simp [h1])]
      split_ifs <;> refine ⟨h1, ?_⟩ <;> (try dsimp only) <;> first | rfl | exact h2
    exact ih _ h3.1 h3.2

/-- C7: from a settled state (tracked and debounced bit both `b`), a raw
level change to `bp` lasting strictly fewer than `DebounceTickLimit` ticks
followed by a return to `b` leaves the debounced bit at `b` at every tick
during and after the glitch. -/
theorem C7_glitch_rejection (b bp : Nat) (s : SwState) (k : Nat)
    (hne : b ≠ bp) (hk : k < DebounceTickLimit)
    (hstate : s.state = b) (hdeb : s.debounced = b) :
    (∀ j, j ≤ k → (run_bits s (List.replicate j bp)).debounced = b) ∧
    (∀ m, (run_bits s (List.replicate k bp ++ List.replicate m b)).debounced = b) := by
  have hglitch : ∀ j, 1 ≤ j → j ≤ k →
      run_bits s (List.replicate j bp) =
        { state := bp, count := j - 1, debounced := s.debounced,
          long_press := s.long_press } := by
    intro j hj1 hj2
    obtain ⟨j', rfl⟩ : ∃ j', j = j' + 1 := ⟨j - 1, by omega⟩
    rw [List.replicate_succ, run_bits_cons]
    have hstep : update_switch bp s = { s with count := 0, state := bp } := by
      unfold update_switch
      rw [if_pos (by rw [hstate]; exact fun hx => hne hx.symm)]
    rw [hstep,
      run_same_low bp j' { s with count := 0, state := bp } (by dsimp only)
        (by dsimp only; unfold DebounceTickLimit at *; omega)]
    dsimp only
    have hj0 : 0 + j' = j' + 1 - 1 := by omega
    rw [hj0]
  constructor
  · intro j hj
    rcases Nat.eq_zero_or_pos j with h0 | hpos
    · subst h0
      simpa [run_bits] using hdeb
    · rw [hglitch j hpos hj]
      exact hdeb
  · intro m
    rw [run_bits_append]
    rcases Nat.eq_zero_or_pos k with hk0 | hkpos
    · subst hk0
      have hnil : run_bits s (List.replicate 0 bp) = s := rfl
      rw [hnil]
      exact (run_same_deb b m s hstate hdeb).1
    · rw [hglitch k hkpos le_rfl]
      rcases Nat.eq_zero_or_pos m with hm0 | hmpos
      · subst hm0
        simpa [run_bits] using hdeb
      · obtain ⟨m', rfl⟩ : ∃ m', m = m' + 1 := ⟨m - 1, by omega⟩
        rw [List.replicate_succ, run_bits_cons]
        have hstep2 :
            update_switch b
              { state := bp, count := k - 1, debounced := s.debounced,
                long_press := s.long_press } =
              { state := b, count := 0, debounced := s.debounced,
                long_press := s.long_press } := by
          unfold update_switch
          rw [if_pos (by dsimp only; exact hne)]
        rw [hstep2]
        exact (run_same_deb b m' _ rfl (by dsimp only; exact hdeb)).1

/-- C7 witness: a 2-tick glitch from released to pressed and back leaves the
debounced bit released at the end of a 5-tick recovery. -/
theorem C7_glitch_rejection_witness :
    (run_bits initial_switch (List.replicate 2 0 ++ List.replicate 5 1)).debounced = 1 :=
  (C7_glitch_rejection 1 0 initial_switch 2 (by decide) (by decide) rfl rfl).2 5

end Volumepad
